import Mathlib

/-!
# Verification of the ResumeTower IMAP poller server

Shallow embedding of the standalone IMAP poller server
(`src/unnamed/part_012`, a Node.js program) and proofs about it.

Conventions of the embedding:
* JavaScript values that may be `null`/`undefined`/non-string are modelled
  as `Option String` (or as `Jval`, a model of JSON values, when the code
  manipulates arbitrary parsed JSON).
* JavaScript string falsiness (`""` is falsy) is modelled by `jsOrOpt`.
* Machine numbers: all counters are `Nat`; confidences are `ℚ`;
  SHA-256 arithmetic is `Nat` with explicit `% 2 ^ 32`.
* External effects (Supabase queries, the Gemini API, the IMAP session,
  mail parsing) are modelled by explicit oracle values that carry the
  outcome of each call; the surrounding control flow is translated
  faithfully from the source.
-/

/-- Model of a JSON value (what `JSON.parse` returns and what the server
serializes with `JSON.stringify`).  Objects keep field order. -/
inductive Jval where
  | str : String → Jval
  | num : ℚ → Jval
  | bool : Bool → Jval
  | null : Jval
  | arr : List Jval → Jval
  | obj : List (String × Jval) → Jval

/-- Field lookup on a JSON object (`value?.field`): `none` on non-objects
and missing fields. -/
def Jval.get : Jval → String → Option Jval
  | .obj fs, k => (fs.find? (fun f => f.1 == k)).map (fun f => f.2)
  | _, _ => none

/-- `typeof value === "string"` refinement: the payload of a JSON string. -/
def jasStr : Option Jval → Option String
  | some (.str s) => some s
  | _ => none

/-- `typeof value === "number"` refinement: the payload of a JSON number. -/
def jasNum : Option Jval → Option ℚ
  | some (.num q) => some q
  | _ => none

/-- Spread-and-add on a JSON object: `{ ...j, k: v }` for a fresh key `k`. -/
def jobjAdd (j : Jval) (k : String) (v : Jval) : Jval :=
  match j with
  | .obj fs => .obj (fs ++ [(k, v)])
  | _ => .obj [(k, v)]

/-- JavaScript `a || b` on nullable strings: `""` and `null` fall through. -/
def jsOrOpt (a b : Option String) : Option String :=
  match a with
  | some s => if s = "" then b else some s
  | none => b

/-- JavaScript `a || null` on a nullable string. -/
def jsOrNull (a : Option String) : Option String :=
  jsOrOpt a none

/-- `String.prototype.toLowerCase`, character-wise (ASCII model; the
strings the pipeline compares are ASCII). -/
def jsToLower (s : String) : String :=
  String.mk (s.data.map Char.toLower)

/-- `String.prototype.trim`, character-wise. -/
def jsTrim (s : String) : String :=
  String.mk (((s.data.dropWhile Char.isWhitespace).reverse.dropWhile
    Char.isWhitespace).reverse)

/-- `String.prototype.slice(0, n)`, character-wise. -/
def strTake (s : String) (n : Nat) : String :=
  String.mk (s.data.take n)

/-- `s.split(c)[0]`: the segment before the first occurrence of `c`. -/
def beforeChar (s : String) (c : Char) : String :=
  String.mk (s.data.takeWhile (fun x => x ≠ c))

/-- `normalizeString(value, fallback)` (part_012 lines 198-202): non-strings
map to the fallback, strings are trimmed, empty trims map to the fallback. -/
def normalizeString (value : Option String) (fallback : String) : String :=
  match value with
  | none => fallback
  | some v =>
    let trimmed := jsTrim v
    if trimmed.length > 0 then trimmed else fallback

/-- JavaScript `String.prototype.includes`: substring containment. -/
def strContains (s t : String) : Bool :=
  s.data.tails.any (fun suffix => t.data.isPrefixOf suffix)

/-- `truncate(text, maxChars)` (part_012 lines 277-281).  Note that the
truncated form gets a literal `"..."` appended. -/
def truncate (text : String) (maxChars : Nat) : String :=
  if text = "" then ""
  else if text.length ≤ maxChars then text
  else strTake text maxChars ++ "..."

/-- `serializeError` output is an opaque string in this model. -/
abbrev ErrMsg := String

-- ---------------------------------------------------------------------------
-- URL model
-- ---------------------------------------------------------------------------

/-- The part of a WHATWG `URL` object that `normalizeUrl` inspects:
the (lower-cased, colon-terminated) scheme and the remainder of the
serialization. -/
structure UrlParts where
  protocol : String
  rest : String
deriving DecidableEq, Repr

/-- Split a character list at its first colon. -/
def splitScheme : List Char → Option (List Char × List Char)
  | [] => none
  | c :: cs =>
    if c = ':' then some ([], cs)
    else (splitScheme cs).map (fun p => (c :: p.1, p.2))

/-- Valid characters of a URL scheme after the first. -/
def isSchemeChar (c : Char) : Bool :=
  c.isAlpha || c.isDigit || c = '+' || c = '-' || c = '.'

/-- Model of the `new URL(candidate)` constructor as consumed by
`normalizeUrl`: requires an absolute URL (a syntactically valid scheme
followed by a colon and a non-empty remainder); lower-cases the scheme.
Serialization normalizations other than scheme lower-casing are not
modelled. -/
def urlParse (s : String) : Option UrlParts :=
  match splitScheme s.data with
  | none => none
  | some (scheme, rest) =>
    match scheme with
    | [] => none
    | c :: _ =>
      if c.isAlpha && scheme.all isSchemeChar && rest ≠ [] then
        some ⟨String.mk (scheme.map Char.toLower) ++ ":", String.mk rest⟩
      else none

/-- `parsed.toString()` in the model. -/
def urlToString (p : UrlParts) : String :=
  p.protocol ++ p.rest

/-- `normalizeUrl(value)` (part_012 lines 204-215): trim, parse as a URL,
reject any scheme other than `http:`/`https:`, return the serialization. -/
def normalizeUrl (value : String) : Option String :=
  let candidate := jsTrim value
  if candidate = "" then none
  else
    match urlParse candidate with
    | none => none
    | some parsed =>
      if parsed.protocol = "http:" || parsed.protocol = "https:" then
        some (urlToString parsed)
      else none

/-- `normalizeUrl` applied to a nullable value (`typeof value !== "string"`
short-circuits to `null`). -/
def normalizeUrlO (value : Option String) : Option String :=
  match value with
  | none => none
  | some s => normalizeUrl s

/-- `normalizeUrl` applied to a JSON field (non-strings rejected). -/
def normalizeUrlJ (value : Option Jval) : Option String :=
  match jasStr value with
  | none => none
  | some s => normalizeUrl s

/-- A string is a well-formed absolute URL whose scheme is http or https. -/
def IsHttpUrl (u : String) : Bool :=
  match urlParse u with
  | some p => p.protocol = "http:" || p.protocol = "https:"
  | none => false

-- ---------------------------------------------------------------------------
-- Links
-- ---------------------------------------------------------------------------

/-- Environment-configurable constant (default value modelled). -/
def MAX_EMAILS_PER_SYNC : Nat := 50
/-- Environment-configurable constant (default value modelled). -/
def MAX_LINKS_PER_EMAIL : Nat := 20
/-- Environment-configurable constant (default value modelled). -/
def MAX_EMAIL_TEXT_CHARS : Nat := 24000
/-- Environment-configurable constant (default value modelled). -/
def MAX_DESCRIPTION_CHARS : Nat := 8000
/-- Environment-configurable constant (default value modelled).  Defined at
part_012 line 32 and never used again anywhere in part_012. -/
def POLL_TIMEOUT_MS : Nat := 180000
/-- part_012 line 25 (default value modelled). -/
def GEMINI_MODEL : String := "gemini-2.5-flash"

/-- A link candidate before normalization (`link?.url`, `link?.text`). -/
structure Link where
  url : Option String
  text : Option String
deriving DecidableEq, Repr

/-- A link after normalization: the url passed `normalizeUrl`. -/
structure LinkOut where
  url : String
  text : String
deriving DecidableEq, Repr

/-- Loop of `dedupeLinks` (part_012 lines 261-275).  The `continue` on an
unusable url skips the size check; the break fires after an insertion
attempt once the map has reached `maxLinks` entries. -/
def dedupeGo (maxLinks : Nat) : List Link → List LinkOut → List LinkOut
  | [], acc => acc
  | l :: ls, acc =>
    match normalizeUrlO l.url with
    | none => dedupeGo maxLinks ls acc
    | some u =>
      let acc2 :=
        if acc.any (fun e => e.url == u) then acc
        else acc ++ [⟨u, normalizeString l.text ""⟩]
      if maxLinks ≤ acc2.length then acc2 else dedupeGo maxLinks ls acc2

/-- `dedupeLinks(links, maxLinks)` (part_012 lines 261-275). -/
def dedupeLinks (links : List Link) (maxLinks : Nat) : List LinkOut :=
  dedupeGo maxLinks links []

/-- `extractLinksFromHtml` (part_012 lines 229-246).  The anchor-regex scan
is an external effect; the oracle supplies the raw `(href, cleaned text)`
matches, and the embedding keeps the source's filtering through
`normalizeUrl` and `normalizeString`. -/
def extractLinksFromHtml (html : String) (ms : List (String × String)) :
    List LinkOut :=
  if html = "" then []
  else
    ms.filterMap (fun m =>
      (normalizeUrl m.1).map (fun u => ⟨u, normalizeString (some m.2) ""⟩))

/-- `extractLinksFromText` (part_012 lines 248-259): the url-regex scan is
oracle-supplied; matches are filtered through `normalizeUrl`. -/
def extractLinksFromText (text : String) (ms : List String) :
    List LinkOut :=
  if text = "" then []
  else
    ms.filterMap (fun m => (normalizeUrl m).map (fun u => ⟨u, ""⟩))

-- ---------------------------------------------------------------------------
-- SHA-256 (`createHash("sha256")` from node:crypto), on Nat with % 2 ^ 32
-- ---------------------------------------------------------------------------

/-- Truncate to 32 bits. -/
def w32 (n : Nat) : Nat := n % 2 ^ 32

/-- 32-bit addition. -/
def add32 (a b : Nat) : Nat := w32 (a + b)

/-- 32-bit right rotation. -/
def rotr32 (x n : Nat) : Nat :=
  w32 ((x >>> n) ||| (x <<< (32 - n)))

/-- 32-bit bitwise complement. -/
def not32 (x : Nat) : Nat := 2 ^ 32 - 1 - x

/-- SHA-256 round constants. -/
def shaK : List Nat :=
  [1116352408, 1899447441, 3049323471, 3921009573,
   961987163, 1508970993, 2453635748, 2870763221,
   3624381080, 310598401, 607225278, 1426881987,
   1925078388, 2162078206, 2614888103, 3248222580,
   3835390401, 4022224774, 264347078, 604807628,
   770255983, 1249150122, 1555081692, 1996064986,
   2554220882, 2821834349, 2952996808, 3210313671,
   3336571891, 3584528711, 113926993, 338241895,
   666307205, 773529912, 1294757372, 1396182291,
   1695183700, 1986661051, 2177026350, 2456956037,
   2730485921, 2820302411, 3259730800, 3345764771,
   3516065817, 3600352804, 4094571909, 275423344,
   430227734, 506948616, 659060556, 883997877,
   958139571, 1322822218, 1537002063, 1747873779,
   1955562222, 2024104815, 2227730452, 2361852424,
   2428436474, 2756734187, 3204031479, 3329325298]

/-- SHA-256 initial hash state. -/
structure Sha8 where
  a : Nat
  b : Nat
  c : Nat
  d : Nat
  e : Nat
  f : Nat
  g : Nat
  h : Nat

/-- SHA-256 initial hash value. -/
def shaH0 : Sha8 :=
  ⟨1779033703, 3144134277, 1013904242, 2773480762,
   1359893119, 2600822924, 528734635, 1541459225⟩

/-- Big-endian length padding: the 8 bytes of `n` (a bit count). -/
def lenBytes (n : Nat) : List Nat :=
  [w32 (n >>> 56) % 256, (n >>> 48) % 256, (n >>> 40) % 256, (n >>> 32) % 256,
   (n >>> 24) % 256, (n >>> 16) % 256, (n >>> 8) % 256, n % 256]

/-- SHA-256 message padding of a byte list. -/
def shaPad (msg : List Nat) : List Nat :=
  let zeros := (64 - (msg.length + 9) % 64) % 64
  msg ++ [0x80] ++ List.replicate zeros 0 ++ lenBytes (msg.length * 8)

/-- Split a byte list into 64-byte chunks. -/
def chunks64 : List Nat → List (List Nat)
  | [] => []
  | b :: bs => ((b :: bs).take 64) :: chunks64 ((b :: bs).drop 64)
termination_by l => l.length
decreasing_by
  simp only [List.drop, List.length_drop, List.length_cons]
  omega

/-- Combine four bytes into a big-endian 32-bit word. -/
def word32 (b0 b1 b2 b3 : Nat) : Nat :=
  ((b0 % 256) <<< 24) + ((b1 % 256) <<< 16) + ((b2 % 256) <<< 8) + b3 % 256

/-- The first 16 schedule words of a 64-byte chunk. -/
def chunkWords : List Nat → List Nat
  | b0 :: b1 :: b2 :: b3 :: rest => word32 b0 b1 b2 b3 :: chunkWords rest
  | _ => []

/-- Extend the message schedule from 16 to 64 words.  The accumulator is
kept newest-first. -/
def extendWords : Nat → List Nat → List Nat
  | 0, acc => acc.reverse
  | n + 1, acc =>
    let w2 := acc.getD 1 0
    let w7 := acc.getD 6 0
    let w15 := acc.getD 14 0
    let w16 := acc.getD 15 0
    let s0 := (rotr32 w15 7) ^^^ (rotr32 w15 18) ^^^ (w15 >>> 3)
    let s1 := (rotr32 w2 17) ^^^ (rotr32 w2 19) ^^^ (w2 >>> 10)
    extendWords n (add32 (add32 w16 s0) (add32 w7 s1) :: acc)

/-- Full 64-word message schedule of a chunk. -/
def schedule (chunk : List Nat) : List Nat :=
  extendWords 48 (chunkWords chunk).reverse

/-- One SHA-256 compression round. -/
def shaRound (st : Sha8) (kw : Nat × Nat) : Sha8 :=
  let s1 := (rotr32 st.e 6) ^^^ (rotr32 st.e 11) ^^^ (rotr32 st.e 25)
  let ch := (st.e &&& st.f) ^^^ ((not32 st.e) &&& st.g)
  let temp1 := add32 (add32 (add32 st.h s1) (add32 ch kw.1)) kw.2
  let s0 := (rotr32 st.a 2) ^^^ (rotr32 st.a 13) ^^^ (rotr32 st.a 22)
  let maj := (st.a &&& st.b) ^^^ (st.a &&& st.c) ^^^ (st.b &&& st.c)
  let temp2 := add32 s0 maj
  ⟨add32 temp1 temp2, st.a, st.b, st.c, add32 st.d temp1, st.e, st.f, st.g⟩

/-- Compress one chunk into the running hash state. -/
def shaCompress (st : Sha8) (chunk : List Nat) : Sha8 :=
  let fin := (shaK.zip (schedule chunk)).foldl shaRound st
  ⟨add32 st.a fin.a, add32 st.b fin.b, add32 st.c fin.c, add32 st.d fin.d,
   add32 st.e fin.e, add32 st.f fin.f, add32 st.g fin.g, add32 st.h fin.h⟩

/-- One hexadecimal digit. -/
def hexDigit (n : Nat) : Char :=
  "0123456789abcdef".data.getD n '0'

/-- Lower-case hexadecimal rendering of a 32-bit word. -/
def hex32 (n : Nat) : String :=
  String.mk
    [hexDigit ((n >>> 28) % 16), hexDigit ((n >>> 24) % 16),
     hexDigit ((n >>> 20) % 16), hexDigit ((n >>> 16) % 16),
     hexDigit ((n >>> 12) % 16), hexDigit ((n >>> 8) % 16),
     hexDigit ((n >>> 4) % 16), hexDigit (n % 16)]

/-- SHA-256 digest of a byte list, as a lower-case hex string. -/
def sha256HexBytes (msg : List Nat) : String :=
  let fin := (chunks64 (shaPad msg)).foldl shaCompress shaH0
  hex32 fin.a ++ hex32 fin.b ++ hex32 fin.c ++ hex32 fin.d ++
    hex32 fin.e ++ hex32 fin.f ++ hex32 fin.g ++ hex32 fin.h

/-- UTF-8 bytes of a string (`hash.update(descriptor)` uses utf-8). -/
def strBytes (s : String) : List Nat :=
  s.toUTF8.toList.map (fun b => b.toNat)

/-- `createHash("sha256").update(s).digest("hex")`. -/
def sha256Hex (s : String) : String :=
  sha256HexBytes (strBytes s)

-- ---------------------------------------------------------------------------
-- String arrays and stringification
-- ---------------------------------------------------------------------------

/-- JavaScript `String(value)` on a parsed JSON value.  Number rendering is
simplified (`Rat` notation instead of JS float notation); no claim depends
on the rendering of non-string inputs. -/
def jsString : Jval → String
  | .str s => s
  | .bool b => if b then "true" else "false"
  | .null => "null"
  | .num q => toString q
  | .arr xs => String.intercalate "," (xs.attach.map (fun x => jsString x.1))
  | .obj _ => "[object Object]"
termination_by j => sizeOf j
decreasing_by
  have := List.sizeOf_lt_of_mem x.2
  simp only [Jval.arr.sizeOf_spec]
  omega

/-- Loop of `normalizeStringArray` (part_012 lines 217-227): lower-case,
trim, drop empties, dedupe preserving first occurrence, stop once `max`
distinct values are collected. -/
def normArrGo (max : Nat) : List Jval → List String → List String
  | [], acc => acc
  | v :: vs, acc =>
    let normalized := normalizeString (some (jsToLower (jsString v))) ""
    if normalized = "" then normArrGo max vs acc
    else
      let acc2 := if acc.any (fun e => e == normalized) then acc
                  else acc ++ [normalized]
      if max ≤ acc2.length then acc2 else normArrGo max vs acc2

/-- `normalizeStringArray(values, max)` (part_012 lines 217-227). -/
def normalizeStringArray (values : Option Jval) (max : Nat) : List String :=
  match values with
  | some (.arr vs) => normArrGo max vs []
  | _ => []

/-- `normalizeStringArray` on a list already known to hold strings. -/
def normalizeStringArrayS (l : List String) (max : Nat) : List String :=
  normalizeStringArray (some (.arr (l.map .str))) max

-- ---------------------------------------------------------------------------
-- Normalized emails and the relevance filter
-- ---------------------------------------------------------------------------

/-- A `NormalizedEmail` as produced by `parseMessage` (part_012 lines
290-324).  The source field `from` is called `fromAddr` here because `from`
is a Lean keyword.  `receivedAt` is an opaque timestamp. -/
structure EmailContext where
  messageId : String
  subject : String
  fromAddr : String
  receivedAt : Option String
  textBody : String
  htmlBody : String
  links : List LinkOut
deriving DecidableEq, Repr

/-- `DEFAULT_KEYWORDS` (part_012 line 34), verbatim including the
upper-case letter in the first entry. -/
def DEFAULT_KEYWORDS : List String := ["Indeed", "linkedin", "glassdoor"]

/-- `keywordMatch({subject, textBody}, keywords, matchInBody)` (part_012
lines 326-332): the subject is lower-cased and checked for each keyword as
a substring; the body is consulted only when the subject check fails and
`matchInBody` is set. -/
def keywordMatch (ctx : EmailContext) (keywords : List String)
    (matchInBody : Bool) : Bool :=
  let subjectLower := jsToLower ctx.subject
  if keywords.any (fun keyword => strContains subjectLower keyword) then true
  else if !matchInBody then false
  else
    let bodyLower := jsToLower ctx.textBody
    keywords.any (fun keyword => strContains bodyLower keyword)

-- ---------------------------------------------------------------------------
-- Opportunity candidates, extraction and enrichment
-- ---------------------------------------------------------------------------

/-- An `OpportunityCandidate` as it flows through extraction and
enrichment.  The enrichment-metadata fields are absent (`none`) until
`enrichOpportunityWithUrls` sets them, mirroring object spread in the
source. -/
structure Opp where
  job_title : String
  company : String
  location : String
  description : String
  required_skills : List String
  posting_url : Option String
  apply_url : Option String
  confidence : Option ℚ
  raw : Jval
  enrichment_status : Option String := none
  enrichment_error : Option String := none
  url_context_metadata : Option Jval := none

/-- `buildFallbackOpportunity(...)` (part_012 lines 370-387). -/
def buildFallbackOpportunity (ctx : EmailContext) : List Opp :=
  [{ job_title := ctx.subject
   , company := normalizeString (some (beforeChar ctx.fromAddr (Char.ofNat 60))) ctx.fromAddr
   , location := "Unknown"
   , description := truncate ctx.textBody MAX_DESCRIPTION_CHARS
   , required_skills := []
   , posting_url := jsOrNull ((ctx.links.head?).map (fun l => l.url))
   , apply_url := jsOrNull ((ctx.links.head?).map (fun l => l.url))
   , confidence := some (35 / 100 : ℚ)
   , raw := .obj [("fallback", .bool true), ("email_id", .str ctx.messageId)] }]

/-- Outcome of the one `generateStructuredJson` call made by the extractor
(only consulted when the capability is enabled): either the serialized
error of a throw anywhere in the call, or the parsed JSON plus the raw
response text. -/
inductive GenCall where
  | fail (msg : ErrMsg)
  | ok (parsed : Jval) (responseText : String)

/-- Cleaning of one raw extracted opportunity (part_012 lines 424-440). -/
def cleanOpportunity (ctx : EmailContext) (j : Jval) : Opp :=
  { job_title := normalizeString (jasStr (j.get "job_title")) ctx.subject
  , company := normalizeString (jasStr (j.get "company"))
      (normalizeString (some (beforeChar ctx.fromAddr (Char.ofNat 60))) ctx.fromAddr)
  , location := normalizeString (jasStr (j.get "location")) "Unknown"
  , description := truncate
      (normalizeString (jasStr (j.get "description"))
        ((jsOrOpt (some ctx.textBody) (some ctx.subject)).getD ""))
      MAX_DESCRIPTION_CHARS
  , required_skills := normalizeStringArray (j.get "required_skills") 50
  , posting_url := normalizeUrlJ (j.get "posting_url")
  , apply_url := normalizeUrlJ (j.get "apply_url")
  , confidence := (jasNum (j.get "confidence")).map (fun c => max 0 (min 1 c))
  , raw := j }

/-- The keep-filter of the extractor (part_012 lines 441-447). -/
def keepOpportunity (o : Opp) : Bool :=
  normalizeString (some o.job_title) "" ≠ "" ||
  normalizeString (some o.description) "" ≠ "" ||
  o.apply_url.isSome || o.posting_url.isSome

/-- `extractOpportunitiesFromEmail(emailContext)` (part_012 lines 389-473).
`aiEnabled` is `GEMINI_API_KEY` being set (the `ai` handle); `gen` is the
outcome of the single structured-generation call. -/
def extractOpportunitiesFromEmail (aiEnabled : Bool) (ctx : EmailContext)
    (gen : GenCall) : List Opp :=
  if !aiEnabled then buildFallbackOpportunity ctx
  else
    match gen with
    | .fail msg =>
      (buildFallbackOpportunity ctx).map (fun item =>
        { item with raw := jobjAdd item.raw "extraction_error" (.str msg) })
    | .ok parsed responseText =>
      let opportunities :=
        match parsed.get "opportunities" with
        | some (.arr xs) => xs
        | _ => []
      let cleaned :=
        (opportunities.map (cleanOpportunity ctx)).filter keepOpportunity
      if cleaned.length > 0 then cleaned
      else
        (buildFallbackOpportunity ctx).map (fun item =>
          { item with
            raw := jobjAdd item.raw "extraction_response" (.str responseText) })

/-- Outcome of the `generateStructuredJson` call made by the enricher. -/
inductive EnrichCall where
  | fail (msg : ErrMsg)
  | ok (parsed : Jval) (urlContextMetadata : Option Jval)

/-- The `candidateUrls` list of the enricher (part_012 lines 485-489):
the candidate's own urls (with `|| ""` applied) and the email links,
deduplicated and projected to urls. -/
def enrichCandidateUrls (opportunity : Opp) (emailLinks : List LinkOut) :
    List String :=
  (dedupeLinks
    (⟨some ((jsOrOpt opportunity.apply_url none).getD ""), some "apply_url"⟩ ::
     ⟨some ((jsOrOpt opportunity.posting_url none).getD ""), some "posting_url"⟩ ::
     emailLinks.map (fun link =>
       ⟨some link.url, some ((jsOrOpt (some link.text) (some "")).getD "")⟩))
    MAX_LINKS_PER_EMAIL).map (fun link => link.url)

/-- `enrichOpportunityWithUrls(opportunity, emailLinks)` (part_012 lines
475-552). -/
def enrichOpportunityWithUrls (aiEnabled : Bool) (opportunity : Opp)
    (emailLinks : List LinkOut) (call : EnrichCall) : Opp :=
  if !aiEnabled then
    { opportunity with
      enrichment_status := some "skipped_no_gemini"
      enrichment_error := none
      url_context_metadata := none }
  else
    let candidateUrls := enrichCandidateUrls opportunity emailLinks
    if candidateUrls.length = 0 then
      { opportunity with
        enrichment_status := some "skipped_no_urls"
        enrichment_error := none
        url_context_metadata := none }
    else
      match call with
      | .fail msg =>
        { opportunity with
          enrichment_status := some "error"
          enrichment_error := some msg
          url_context_metadata := none }
      | .ok parsed meta =>
        { opportunity with
          job_title := normalizeString (jasStr (parsed.get "job_title")) opportunity.job_title
          company := normalizeString (jasStr (parsed.get "company")) opportunity.company
          location := normalizeString (jasStr (parsed.get "location")) opportunity.location
          description := truncate
            (normalizeString (jasStr (parsed.get "description")) opportunity.description)
            MAX_DESCRIPTION_CHARS
          required_skills := normalizeStringArrayS
            (normalizeStringArrayS opportunity.required_skills 60 ++
             normalizeStringArray (parsed.get "required_skills") 60) 60
          posting_url := jsOrNull
            (jsOrOpt (normalizeUrlJ (parsed.get "posting_url")) opportunity.posting_url)
          apply_url := jsOrNull
            (jsOrOpt (normalizeUrlJ (parsed.get "apply_url"))
              (jsOrOpt opportunity.apply_url
                (jsOrOpt (normalizeUrlJ (parsed.get "posting_url"))
                  opportunity.posting_url)))
          confidence :=
            match jasNum (parsed.get "confidence") with
            | some c => some (max 0 (min 1 c))
            | none => opportunity.confidence
          enrichment_status := some "enriched"
          enrichment_error := none
          url_context_metadata := meta }

-- ---------------------------------------------------------------------------
-- Fingerprint
-- ---------------------------------------------------------------------------

/-- The `descriptor` string of `buildJobFingerprint` (part_012 lines
1010-1017): the pipe-join of the normalized message id, the lower-cased
title, the lower-cased company, and the best available URL with the
320-character description fallback. -/
def fingerprintDescriptor (emailId : String) (opportunity : Opp) : String :=
  String.intercalate "|"
    [ normalizeString (some emailId) ""
    , jsToLower (normalizeString (some opportunity.job_title) "")
    , jsToLower (normalizeString (some opportunity.company) "")
    , match normalizeUrlO opportunity.apply_url with
      | some u => u
      | none =>
        match normalizeUrlO opportunity.posting_url with
        | some u => u
        | none =>
          strTake (jsToLower (normalizeString (some opportunity.description) "")) 320 ]

/-- `buildJobFingerprint(emailId, opportunity)` (part_012 lines 1009-1019). -/
def buildJobFingerprint (emailId : String) (opportunity : Opp) : String :=
  sha256Hex (fingerprintDescriptor emailId opportunity)

-- ---------------------------------------------------------------------------
-- Message parsing
-- ---------------------------------------------------------------------------

/-- Oracle for one `simpleParser` call plus the envelope fields consulted
by `parseMessage`: every field that may be missing or non-string is an
`Option`.  The two regex scans of the link extractors are supplied as raw
match lists. -/
structure ParsedMail where
  subject : Option String
  envSubject : Option String
  fromText : Option String
  envFromName : Option String
  envFromAddr : Option String
  date : Option String
  envDate : Option String
  messageId : Option String
  envMessageId : Option String
  text : Option String
  html : Option String
  htmlMatches : List (String × String)
  textMatches : List String

/-- `parseMessage(sourceBuffer, message)` (part_012 lines 290-324). -/
def parseMessage (uid : Nat) (p : ParsedMail) : EmailContext :=
  let subject := normalizeString (jsOrOpt p.subject p.envSubject) "(No Subject)"
  let fromAddr :=
    let f1 := normalizeString p.fromText ""
    if f1 ≠ "" then f1
    else
      let f2 := normalizeString p.envFromName ""
      if f2 ≠ "" then f2 else normalizeString p.envFromAddr "(Unknown)"
  let receivedAt :=
    match p.date with
    | some d => some d
    | none => p.envDate
  let messageId :=
    let m1 := normalizeString p.messageId ""
    if m1 ≠ "" then m1
    else
      let m2 := normalizeString p.envMessageId ""
      if m2 ≠ "" then m2 else "imap-" ++ toString uid
  let textBody := normalizeString (jsOrOpt p.text (some "")) ""
  let htmlBody := p.html.getD ""
  let links := dedupeLinks
    (((extractLinksFromHtml htmlBody p.htmlMatches ++
       extractLinksFromText textBody p.textMatches)).map
      (fun l => ⟨some l.url, some l.text⟩))
    MAX_LINKS_PER_EMAIL
  ⟨messageId, subject, fromAddr, receivedAt, textBody, htmlBody, links⟩

-- ---------------------------------------------------------------------------
-- Run status record
-- ---------------------------------------------------------------------------

/-- The `pollStats` record (part_012 lines 35-46). -/
structure Stats where
  running : Bool
  integrationsFound : Nat
  emailsScanned : Nat
  emailsKeywordMatched : Nat
  opportunitiesExtracted : Nat
  jobsInserted : Nat
  duplicateJobs : Nat
  resumesGenerated : Nat
  resumesFailed : Nat
  errors : List String
deriving DecidableEq, Repr

/-- The value `resetStats()` installs (part_012 lines 48-61): `running` is
set and every counter and the error list are cleared. -/
def resetStats : Stats :=
  ⟨true, 0, 0, 0, 0, 0, 0, 0, 0, []⟩

/-- The initial `pollStats` value (part_012 lines 35-46). -/
def initialStats : Stats :=
  ⟨false, 0, 0, 0, 0, 0, 0, 0, 0, []⟩

/-- `JSON.stringify(pollStats)` as a JSON value. -/
def statsToJson (s : Stats) : Jval :=
  .obj
    [ ("running", .bool s.running)
    , ("integrationsFound", .num s.integrationsFound)
    , ("emailsScanned", .num s.emailsScanned)
    , ("emailsKeywordMatched", .num s.emailsKeywordMatched)
    , ("opportunitiesExtracted", .num s.opportunitiesExtracted)
    , ("jobsInserted", .num s.jobsInserted)
    , ("duplicateJobs", .num s.duplicateJobs)
    , ("resumesGenerated", .num s.resumesGenerated)
    , ("resumesFailed", .num s.resumesFailed)
    , ("errors", .arr (s.errors.map .str)) ]

-- ---------------------------------------------------------------------------
-- Persisted jobs
-- ---------------------------------------------------------------------------

/-- JavaScript truthiness of a JSON value. -/
def jsTruthy : Jval → Bool
  | .null => false
  | .bool b => b
  | .str s => s ≠ ""
  | .num q => q ≠ 0
  | _ => true

/-- `value || null` on a JSON value. -/
def jvalOrNull (j : Jval) : Jval :=
  if jsTruthy j then j else .null

/-- The row inserted into the `jobs` table (part_012 lines 1251-1288). -/
structure JobData where
  email_id : String
  user_id : String
  job_fingerprint : String
  job_title : String
  company : String
  location : String
  description : String
  job_link : String
  posting_url : Option String
  apply_url : Option String
  source_subject : String
  source_from : String
  source_received_at : Option String
  source_message_uid : Nat
  source_links : List LinkOut
  status : String
  extracted_skills : List String
  extraction_model : String
  extraction_confidence : Option ℚ
  extraction_raw : Jval
  parse_status : String
  parse_error : Option String

/-- The `jobData` object literal (part_012 lines 1251-1288), including the
`primaryUrl` fallback chain of lines 1224-1228. -/
def buildJobData (u host : String) (uid : Nat) (ctx : EmailContext)
    (extracted enriched : Opp) : JobData :=
  let primaryUrl :=
    jsOrOpt enriched.apply_url
      (jsOrOpt enriched.posting_url
        (jsOrNull ((ctx.links.head?).map (fun l => l.url))))
  { email_id := ctx.messageId
  , user_id := u
  , job_fingerprint := buildJobFingerprint ctx.messageId enriched
  , job_title := normalizeString (some enriched.job_title) ctx.subject
  , company := normalizeString (some enriched.company)
      (normalizeString (some (beforeChar ctx.fromAddr (Char.ofNat 60))) ctx.fromAddr)
  , location := normalizeString (some enriched.location) "Unknown"
  , description := truncate
      (normalizeString (some enriched.description)
        ((jsOrOpt (some ctx.textBody) (some ctx.subject)).getD ""))
      MAX_DESCRIPTION_CHARS
  , job_link := (jsOrOpt primaryUrl
      (some ("imap://" ++ host ++ "/INBOX/" ++ toString uid))).getD ""
  , posting_url := jsOrOpt enriched.posting_url primaryUrl
  , apply_url := jsOrOpt enriched.apply_url primaryUrl
  , source_subject := ctx.subject
  , source_from := ctx.fromAddr
  , source_received_at := ctx.receivedAt
  , source_message_uid := uid
  , source_links := ctx.links
  , status := "prepared"
  , extracted_skills := normalizeStringArrayS enriched.required_skills 60
  , extraction_model := GEMINI_MODEL
  , extraction_confidence := enriched.confidence
  , extraction_raw := .obj
      [ ("extraction", jvalOrNull extracted.raw)
      , ("enrichment_status",
          match jsOrNull enriched.enrichment_status with
          | some s => .str s
          | none => .null)
      , ("enrichment_error",
          match jsOrNull enriched.enrichment_error with
          | some s => .str s
          | none => .null)
      , ("url_context_metadata",
          match enriched.url_context_metadata with
          | some v => jvalOrNull v
          | none => .null) ]
  , parse_status :=
      if enriched.enrichment_status = some "error" then "partial" else "parsed"
  , parse_error := jsOrNull enriched.enrichment_error }

/-- The `maybeSingle` lookup by (user id, source message id, fingerprint)
(part_012 lines 1231-1237), modelled over the list of persisted rows. -/
def jobExists (db : List JobData) (u emailId fingerprint : String) : Bool :=
  db.any (fun j =>
    j.user_id == u && j.email_id == emailId && j.job_fingerprint == fingerprint)

-- ---------------------------------------------------------------------------
-- The per-opportunity / per-message / per-integration loops
-- ---------------------------------------------------------------------------

/-- Overall mutable state threaded through one poll run: the status
record, the `jobs` table, and the `resumes` table (each resume row is
keyed by the job row it belongs to). -/
structure RunSt where
  stats : Stats
  db : List JobData
  resumes : List JobData

/-- Append a message to the `errors` array. -/
def pushErr (st : RunSt) (m : String) : RunSt :=
  { st with stats := { st.stats with errors := st.stats.errors ++ [m] } }

/-- Outcomes of the external calls made while processing one opportunity:
the enrichment generation call, the existing-job lookup, the job insert,
and the whole resume generate/render/upload/insert block. -/
structure OppCall where
  enrichCall : EnrichCall
  lookupError : Option ErrMsg
  insertError : Option ErrMsg
  resumeResult : Except ErrMsg Unit

/-- One iteration of the opportunity loop (part_012 lines 1222-1343).
Returns the new state and the new value of `messagePersisted`. -/
def processOpportunity (aiEnabled : Bool) (u host : String) (uid : Nat)
    (ctx : EmailContext) (st : RunSt) (persisted : Bool) (extracted : Opp)
    (call : OppCall) : RunSt × Bool :=
  let enriched := enrichOpportunityWithUrls aiEnabled extracted ctx.links call.enrichCall
  let fingerprint := buildJobFingerprint ctx.messageId enriched
  match call.lookupError with
  | some m =>
    (pushErr st ("Existing-job check failed for \"" ++ enriched.job_title ++ "\": " ++ m),
     persisted)
  | none =>
    if jobExists st.db u ctx.messageId fingerprint then
      ({ st with stats := { st.stats with duplicateJobs := st.stats.duplicateJobs + 1 } },
       true)
    else
      let jobData := buildJobData u host uid ctx extracted enriched
      match call.insertError with
      | some m =>
        (pushErr st ("Job insert failed for \"" ++ jobData.job_title ++ "\": " ++ m),
         persisted)
      | none =>
        let st1 := { st with
          db := st.db ++ [jobData]
          stats := { st.stats with jobsInserted := st.stats.jobsInserted + 1 } }
        match call.resumeResult with
        | .ok _ =>
          ({ st1 with
             resumes := st1.resumes ++ [jobData]
             stats := { st1.stats with
               resumesGenerated := st1.stats.resumesGenerated + 1 } }, true)
        | .error m =>
          ({ st1 with stats := { st1.stats with
              resumesFailed := st1.stats.resumesFailed + 1
              errors := st1.stats.errors ++
                ["Resume generation failed for \"" ++ jobData.job_title ++ "\": " ++ m] } },
           true)

/-- The opportunity loop, with `calls i` the oracle of the i-th iteration. -/
def processOpps (aiEnabled : Bool) (u host : String) (uid : Nat)
    (ctx : EmailContext) (calls : Nat → OppCall) :
    List Opp → Nat → RunSt → Bool → RunSt × Bool
  | [], _, st, persisted => (st, persisted)
  | o :: rest, i, st, persisted =>
    let r := processOpportunity aiEnabled u host uid ctx st persisted o (calls i)
    processOpps aiEnabled u host uid ctx calls rest (i + 1) r.1 r.2

/-- Oracle for the processing of one fetched message: the parse outcome,
whether the count query for the email-id short circuit errored, the
extraction call, and the per-opportunity call outcomes. -/
structure MsgOracle where
  parse : Except ErrMsg ParsedMail
  countError : Bool
  gen : GenCall
  calls : Nat → OppCall

/-- The tail of one message-loop iteration once the guards have passed
(part_012 lines 1216-1343): bump the match counter, extract, bump the
extraction counter, and run the opportunity loop with `messagePersisted`
initially false. -/
def msgLoopResult (aiEnabled : Bool) (u host : String) (uid : Nat)
    (ctx : EmailContext) (mo : MsgOracle) (st : RunSt) : RunSt × Bool :=
  let st1 := { st with stats := { st.stats with
    emailsKeywordMatched := st.stats.emailsKeywordMatched + 1 } }
  let opportunities := extractOpportunitiesFromEmail aiEnabled ctx mo.gen
  let st2 := { st1 with stats := { st1.stats with
    opportunitiesExtracted := st1.stats.opportunitiesExtracted + opportunities.length } }
  processOpps aiEnabled u host uid ctx mo.calls opportunities 0 st2 false

/-- One iteration of the message loop (part_012 lines 1186-1348): parse,
dedupe by email id (a count-query error is only warned about and
processing continues), relevance filter, extraction, opportunity loop,
and the `uidsToMark` push for persisted messages. -/
def processMessage (aiEnabled : Bool) (u host : String)
    (keywords : List String) (matchInBody : Bool) (uid : Nat)
    (mo : MsgOracle) (st : RunSt) (uids : List Nat) : RunSt × List Nat :=
  match mo.parse with
  | .error e =>
    (pushErr st ("Failed to parse message UID " ++ toString uid ++ ": " ++ e), uids)
  | .ok pm =>
    let ctx := parseMessage uid pm
    if !mo.countError &&
        st.db.any (fun j => j.user_id == u && j.email_id == ctx.messageId) then
      (st, uids)
    else if !(keywordMatch ctx keywords matchInBody) then (st, uids)
    else
      let r := msgLoopResult aiEnabled u host uid ctx mo st
      (r.1, if r.2 then uids ++ [uid] else uids)

/-- The message loop over all fetched messages. -/
def processMessages (aiEnabled : Bool) (u host : String)
    (keywords : List String) (matchInBody : Bool) :
    List (Nat × MsgOracle) → RunSt → List Nat → RunSt × List Nat
  | [], st, uids => (st, uids)
  | (uid, mo) :: rest, st, uids =>
    let r := processMessage aiEnabled u host keywords matchInBody uid mo st uids
    processMessages aiEnabled u host keywords matchInBody rest r.1 r.2

-- ---------------------------------------------------------------------------
-- Integrations and the poll run
-- ---------------------------------------------------------------------------

/-- A `user_integrations` row as consumed by `handlePoll` (part_012 lines
1142-1166).  `job_keywords` is a JSON array whose elements may be of any
type; `max_emails_per_sync` may be absent or non-positive. -/
structure Integration where
  user_id : String
  imap_host : String
  imap_port : Option Nat
  imap_user : String
  job_keywords : Option (List Jval)
  keyword_match_scope : Option String
  max_emails_per_sync : Option Int

/-- Order-preserving deduplication (the `new Set(...)` spread). -/
def dedupList : List String → List String → List String
  | [], acc => acc
  | s :: rest, acc =>
    dedupList rest (if acc.any (fun e => e == s) then acc else acc ++ [s])

/-- The effective keyword list of one integration (part_012 lines
1162-1165): user keywords are trimmed, lower-cased, de-emptied and
deduplicated; an absent or empty configuration falls back to
`DEFAULT_KEYWORDS` verbatim. -/
def effectiveKeywords (jk : Option (List Jval)) : List String :=
  match jk with
  | some ks =>
    if ks.length > 0 then
      dedupList
        ((ks.map (fun k => jsToLower (jsTrim (jsString k)))).filter (fun s => s ≠ "")) []
    else DEFAULT_KEYWORDS
  | none => DEFAULT_KEYWORDS

/-- The effective per-identity message cap (part_012 lines 1156-1160):
`0` is the "unlimited" sentinel used for `syncAll`. -/
def effectiveMaxEmails (syncAll : Bool) (m : Option Int) : Nat :=
  if syncAll then 0
  else
    match m with
    | some v => if v > 0 then v.toNat else 10
    | none => 10

/-- An error thrown inside the per-integration `try`, with the
`authenticationFailed` flag the catch block inspects. -/
structure ErrO where
  msg : ErrMsg
  auth : Bool

/-- The identity-level error message (part_012 lines 1363-1371). -/
def authMessage (e : ErrO) : String :=
  if e.auth then
    "IMAP authentication failed. If using Gmail, make sure you are using a Google App Password."
  else e.msg

/-- Outcomes of the external calls of one integration: credential
decryption, the base-profile fetch, the IMAP fetch (a function of the
effective cap), and the mark-as-read session. -/
structure IntOracle where
  decryptResult : Except ErrO Unit
  profileResult : Except ErrO Unit
  fetchResult : Nat → Except ErrO (List (Nat × MsgOracle))
  markError : Option ErrMsg

/-- One iteration of the integration loop (part_012 lines 1142-1372):
a failure of decrypt / profile fetch / IMAP fetch is caught and recorded
(with the distinguished authentication message) without aborting the run;
a mark-as-read failure is recorded after the message loop. -/
def processIntegration (aiEnabled syncAll : Bool) (integ : Integration)
    (io : IntOracle) (st : RunSt) : RunSt :=
  let effectiveMax := effectiveMaxEmails syncAll integ.max_emails_per_sync
  let keywords := effectiveKeywords integ.job_keywords
  let matchInBody := integ.keyword_match_scope == some "subject_or_body"
  match io.decryptResult with
  | .error e => pushErr st (authMessage e)
  | .ok _ =>
    match io.profileResult with
    | .error e => pushErr st (authMessage e)
    | .ok _ =>
      match io.fetchResult effectiveMax with
      | .error e => pushErr st (authMessage e)
      | .ok rawMessages =>
        let st1 := { st with stats := { st.stats with
          emailsScanned := st.stats.emailsScanned + rawMessages.length } }
        let r := processMessages aiEnabled integ.user_id integ.imap_host
          keywords matchInBody rawMessages st1 []
        if r.2.length > 0 then
          match io.markError with
          | some m => pushErr r.1 ("Failed to mark messages as read: " ++ m)
          | none => r.1
        else r.1

/-- The integration loop, with `ints i` the oracle of the i-th identity. -/
def processIntegrations (aiEnabled syncAll : Bool) (ints : Nat → IntOracle) :
    List Integration → Nat → RunSt → RunSt
  | [], _, st => st
  | integ :: rest, i, st =>
    processIntegrations aiEnabled syncAll ints rest (i + 1)
      (processIntegration aiEnabled syncAll integ (ints i) st)

/-- Oracle for one whole poll run: a possible synchronous throw before the
`try` block is entered (its rejection is handled by the HTTP handler's
`.catch`), the integrations query, the per-identity oracles, and whether
the generation capability is configured. -/
structure PollOracle where
  preThrow : Option ErrMsg
  integrationsResult : Except ErrMsg (List Integration)
  intOracle : Nat → IntOracle
  aiEnabled : Bool

/-- `handlePoll({ syncAll })` (part_012 lines 1112-1384): the body runs
inside `try`/`catch`, a query error is recorded as a run-level error, and
the `finally` clause clears `running` on every path out of the function
body. -/
def handlePoll (syncAll : Bool) (o : PollOracle) (st0 : RunSt) : RunSt :=
  let afterTry :=
    match o.integrationsResult with
    | .error m => pushErr st0 m
    | .ok integrations =>
      if integrations.length = 0 then st0
      else
        processIntegrations o.aiEnabled syncAll o.intOracle integrations 0
          { st0 with stats := { st0.stats with
            integrationsFound := integrations.length } }
  { afterTry with stats := { afterTry.stats with running := false } }

/-- The background invocation `handlePoll({ syncAll }).catch(...)`
(part_012 lines 1437-1441): a rejection escaping `handlePoll` (modelled by
`preThrow`) clears `running` and records the error in the handler's
`.catch`. -/
def startPoll (syncAll : Bool) (o : PollOracle) (st : RunSt) : RunSt :=
  match o.preThrow with
  | some e =>
    { st with stats := { st.stats with
        running := false
        errors := st.stats.errors ++ [e] } }
  | none => handlePoll syncAll o st

/-- `startPoll` annotated with the wall-clock duration of the run in
milliseconds.  part_012 defines `POLL_TIMEOUT_MS` (line 32) but never
reads it again, and no definition of the run consults the clock, so the
annotation is ignored — which is exactly the point at issue in the claims
about the overall timeout. -/
def runPollTimed (elapsedMs : Nat) (syncAll : Bool) (o : PollOracle)
    (st : RunSt) : RunSt :=
  startPoll syncAll o st

-- ---------------------------------------------------------------------------
-- HTTP server
-- ---------------------------------------------------------------------------

/-- An incoming HTTP request: method, pathname, and the parsed JSON body
(`none` models both an empty body and a body that failed to parse, which
the handler treats alike). -/
structure Request where
  method : String
  path : String
  body : Option Jval

/-- An outgoing HTTP response: status code and JSON body (`Jval.null` for
the empty 204 body). -/
structure Response where
  status : Nat
  body : Jval

/-- The `{ syncAll: bool }` option of a poll request
(`reqBody?.syncAll === true`, part_012 line 1433). -/
def requestSyncAll (body : Option Jval) : Bool :=
  match body with
  | some b =>
    match b.get "syncAll" with
    | some (.bool true) => true
    | _ => false
  | none => false

/-- The HTTP dispatcher (part_012 lines 1396-1449).  The returned state is
the state after the background poll task (if one was started) has
completed; the response is produced before that task runs, so the `202`
body carries the snapshot taken right after `resetStats()`. -/
def serverHandle (st : RunSt) (req : Request) (o : PollOracle) :
    RunSt × Response :=
  if req.method == "OPTIONS" then (st, ⟨204, .null⟩)
  else if req.path == "/health" then
    (st, ⟨200, .obj [("ok", .bool true), ("pollRunning", .bool st.stats.running)]⟩)
  else if req.path == "/status" then (st, ⟨200, statsToJson st.stats⟩)
  else if req.path == "/poll" && req.method == "POST" then
    if st.stats.running then
      (st, ⟨409, .obj
        [ ("error", .str "A sync is already in progress. Please wait for it to finish.")
        , ("stats", statsToJson st.stats) ]⟩)
    else
      let syncAll := requestSyncAll req.body
      let st1 := { st with stats := resetStats }
      (startPoll syncAll o st1,
       ⟨202, .obj
         [ ("message", .str "Polling started in background")
         , ("stats", statsToJson st1.stats) ]⟩)
  else (st, ⟨404, .obj [("error", .str "Not found")]⟩)

-- ---------------------------------------------------------------------------
-- Claim theorems
-- ---------------------------------------------------------------------------

/-- C1: for every source message id and candidate, `buildJobFingerprint`
equals the SHA-256 hex digest of the pipe-join of exactly the normalized
message id, the lower-cased title, the lower-cased company, and the best
available URL (normalized apply url, else normalized posting url, else the
lower-cased description truncated to a 320-character prefix); and it is a
pure function of those fields only: two candidates agreeing on them yield
the same hash regardless of every other field (raw payload, skills,
confidence, location, enrichment metadata). -/
theorem C1_fingerprint_def_and_purity (emailId : String) (c1 c2 : Opp)
    (ht : c1.job_title = c2.job_title) (hc : c1.company = c2.company)
    (hd : c1.description = c2.description)
    (ha : c1.apply_url = c2.apply_url) (hp : c1.posting_url = c2.posting_url) :
    buildJobFingerprint emailId c1 =
      sha256Hex (String.intercalate "|"
        [ normalizeString (some emailId) ""
        , jsToLower (normalizeString (some c1.job_title) "")
        , jsToLower (normalizeString (some c1.company) "")
        , match normalizeUrlO c1.apply_url with
          | some u => u
          | none =>
            match normalizeUrlO c1.posting_url with
            | some u => u
            | none =>
              strTake (jsToLower (normalizeString (some c1.description) "")) 320 ]) ∧
    buildJobFingerprint emailId c1 = buildJobFingerprint emailId c2 := by
  constructor
  · rfl
  · unfold buildJobFingerprint fingerprintDescriptor
    rw [ht, hc, hd, ha, hp]

/-- A concrete candidate for the C1 witness. -/
def wOppA : Opp :=
  { job_title := "Backend Engineer"
  , company := "Acme Corp"
  , location := "Toronto"
  , description := "Build services"
  , required_skills := []
  , posting_url := none
  , apply_url := some "https://acme.example/jobs/1"
  , confidence := none
  , raw := .null }

/-- The same semantic fields as `wOppA` with every other field changed. -/
def wOppB : Opp :=
  { wOppA with
    location := "Remote"
    required_skills := ["go", "sql"]
    confidence := some (9 / 10 : ℚ)
    raw := .obj [("source", .str "llm"), ("extra", .num 3)]
    enrichment_status := some "enriched"
    url_context_metadata := some (.arr [.str "m"]) }

theorem C1_witness :
    buildJobFingerprint "<msg-1@example>" wOppA =
      buildJobFingerprint "<msg-1@example>" wOppB :=
  (C1_fingerprint_def_and_purity "<msg-1@example>" wOppA wOppB
    rfl rfl rfl rfl rfl).2

/-- The normalized email of the C7 failing input: a subject that contains
the default keyword "Indeed" verbatim (and hence in particular contains it
case-insensitively). -/
def wIndeedCtx : EmailContext :=
  { messageId := "<m@indeed.example>"
  , subject := "Indeed: 5 new jobs for you"
  , fromAddr := "Indeed <noreply@indeed.example>"
  , receivedAt := none
  , textBody := ""
  , htmlBody := ""
  , links := [] }

/-- C7 (code bug): relevance matching is claimed to be case-insensitive
substring containment for the configured keywords including the built-in
default list, but `keywordMatch` lower-cases the subject while comparing
against the raw keyword, and the first default keyword is the string
"Indeed" with an upper-case letter.  A lower-cased subject can never
contain an upper-case letter, so on the default list an email whose
subject is literally "Indeed: 5 new jobs for you" is judged irrelevant:
the subject does contain the keyword case-insensitively (first conjunct)
yet `keywordMatch` returns false (second conjunct). -/
theorem C7_default_keyword_never_matches :
    strContains (jsToLower wIndeedCtx.subject) (jsToLower "Indeed") = true ∧
    DEFAULT_KEYWORDS.head? = some "Indeed" ∧
    keywordMatch wIndeedCtx DEFAULT_KEYWORDS false = false ∧
    keywordMatch wIndeedCtx DEFAULT_KEYWORDS true = false := by
  refine ⟨by decide, rfl, by decide, by decide⟩

/-- An integration oracle whose every external call succeeds with nothing
to process. -/
def trivialIntOracle : IntOracle :=
  { decryptResult := .ok ()
  , profileResult := .ok ()
  , fetchResult := fun _ => .ok []
  , markError := none }

/-- A poll oracle with no integrations configured and no failures. -/
def trivialOracle : PollOracle :=
  { preThrow := none
  , integrationsResult := .ok []
  , intOracle := fun _ => trivialIntOracle
  , aiEnabled := false }

/-- The server state with the initial status record and empty tables. -/
def idleState : RunSt :=
  { stats := initialStats, db := [], resumes := [] }

/-- C9 counterexample: the claim says the `/health` body has the shape
`{ ok: true, running: bool }`, with the run flag under the field name
`running`.  On the code the response is 200 but the body's second field is
named `pollRunning`; there is no field named `running` at all. -/
theorem C9_counterexample :
    (serverHandle idleState ⟨"GET", "/health", none⟩ trivialOracle).2.status = 200 ∧
    ((serverHandle idleState ⟨"GET", "/health", none⟩ trivialOracle).2.body).get
      "running" = none ∧
    ((serverHandle idleState ⟨"GET", "/health", none⟩ trivialOracle).2.body).get
      "pollRunning" = some (.bool false) := by
  refine ⟨rfl, rfl, rfl⟩

/-- C9 (amended): every GET `/health` request receives HTTP status 200
with the JSON body `{ ok: true, pollRunning: <the current run flag> }` and
leaves the state untouched — the field reporting the run flag is named
`pollRunning`, not `running`. -/
theorem C9_health_shape (st : RunSt) (req : Request) (o : PollOracle)
    (hm : req.method = "GET") (hp : req.path = "/health") :
    serverHandle st req o =
      (st, ⟨200, .obj [("ok", .bool true), ("pollRunning", .bool st.stats.running)]⟩) := by
  obtain ⟨m, p, b⟩ := req
  subst hm hp
  rfl

theorem C9_health_shape_witness :
    serverHandle idleState ⟨"GET", "/health", none⟩ trivialOracle =
      (idleState,
       ⟨200, .obj [("ok", .bool true), ("pollRunning", .bool idleState.stats.running)]⟩) :=
  C9_health_shape idleState ⟨"GET", "/health", none⟩ trivialOracle rfl rfl

/-- C8 counterexample: the claim says every run whose wall-clock duration
exceeds `POLL_TIMEOUT_MS` yields a timeout error on the run's error
surface.  On the code `POLL_TIMEOUT_MS` is never consulted: here a run
annotated with a duration far above the bound completes normally with an
empty `errors` array (so in particular no timeout error), and the run is
simply over (`running = false`) rather than timed out. -/
theorem C8_counterexample :
    1000000000 > POLL_TIMEOUT_MS ∧
    (runPollTimed 1000000000 false trivialOracle
      { stats := resetStats, db := [], resumes := [] }).stats.errors = [] ∧
    (runPollTimed 1000000000 false trivialOracle
      { stats := resetStats, db := [], resumes := [] }).stats.running = false := by
  refine ⟨by decide, rfl, rfl⟩

/-- C8 (amended): part_012 defines `POLL_TIMEOUT_MS` but never uses it; no
wall-clock timeout is raced against the sync run.  The outcome of a run is
independent of its elapsed wall-clock time — in particular exceeding the
configured bound produces no timeout error. -/
theorem C8_no_timeout_race (n1 n2 : Nat) (syncAll : Bool) (o : PollOracle)
    (st : RunSt) :
    runPollTimed n1 syncAll o st = runPollTimed n2 syncAll o st := rfl

/-- C4: every completion of the poll run — normal return, an exception
caught inside `handlePoll` (modelled by a failing integrations query or
failing per-integration calls), or an exception escaping `handlePoll`
before its `try` (modelled by `preThrow` and handled by the HTTP handler's
`.catch`) — leaves the status record with `running = false`, so the
single-flight lock is never left held. -/
theorem C4_running_always_cleared (syncAll : Bool) (o : PollOracle)
    (st : RunSt) : (startPoll syncAll o st).stats.running = false := by
  unfold startPoll handlePoll
  cases o.preThrow <;> rfl

/-- C3: for every POST `/poll` request, if a run is in progress the
response is 409 Conflict carrying the current snapshot and the state —
running flag, every counter, the error list, and the tables — is left
completely unchanged by the rejected request; if no run is in progress the
snapshot is reset and the response is 202 Accepted carrying the just-reset
snapshot (running set, all counters zero, empty errors), the run then
proceeding from the reset state.  At most one run is active at a time. -/
theorem C3_poll_single_flight (st : RunSt) (req : Request) (o : PollOracle)
    (hm : req.method = "POST") (hp : req.path = "/poll") :
    (st.stats.running = true →
      serverHandle st req o =
        (st, ⟨409, .obj
          [ ("error", .str "A sync is already in progress. Please wait for it to finish.")
          , ("stats", statsToJson st.stats) ]⟩)) ∧
    (st.stats.running = false →
      (serverHandle st req o).2 =
        ⟨202, .obj
          [ ("message", .str "Polling started in background")
          , ("stats", statsToJson resetStats) ]⟩ ∧
      (serverHandle st req o).1 =
        startPoll (requestSyncAll req.body) o { st with stats := resetStats } ∧
      resetStats.running = true ∧ resetStats.errors = [] ∧
      resetStats.integrationsFound = 0 ∧ resetStats.emailsScanned = 0 ∧
      resetStats.emailsKeywordMatched = 0 ∧
      resetStats.opportunitiesExtracted = 0 ∧
      resetStats.jobsInserted = 0 ∧ resetStats.duplicateJobs = 0 ∧
      resetStats.resumesGenerated = 0 ∧ resetStats.resumesFailed = 0) := by
  obtain ⟨m, p, b⟩ := req
  subst hm hp
  constructor
  · intro h
    simp [serverHandle, h]
  · intro h
    refine ⟨?_, ?_, rfl, rfl, rfl, rfl, rfl, rfl, rfl, rfl, rfl, rfl⟩ <;>
      simp [serverHandle, h]

/-- A server state with a run in progress (the snapshot right after a
reset). -/
def busyState : RunSt :=
  { stats := resetStats, db := [], resumes := [] }

theorem C3_poll_single_flight_witness :
    serverHandle busyState ⟨"POST", "/poll", none⟩ trivialOracle =
      (busyState, ⟨409, .obj
        [ ("error", .str "A sync is already in progress. Please wait for it to finish.")
        , ("stats", statsToJson busyState.stats) ]⟩) :=
  (C3_poll_single_flight busyState ⟨"POST", "/poll", none⟩ trivialOracle
    rfl rfl).1 rfl

/-- C5: `extract` never throws and returns a non-empty candidate list for
every normalized email: when the capability is disabled, when the
generation call fails, and when it returns zero usable candidates, the
result is exactly the one fallback candidate (with the recorded
degradation merged into its raw payload in the latter two cases), and the
fallback candidate is synthesized deterministically from the subject,
sender and truncated body text, carries the fixed confidence 0.35 and the
explicit `fallback: true` marker in its raw payload. -/
theorem C5_extract_at_least_one (aiEnabled : Bool) (ctx : EmailContext)
    (gen : GenCall) :
    extractOpportunitiesFromEmail aiEnabled ctx gen ≠ [] ∧
    (aiEnabled = false →
      extractOpportunitiesFromEmail aiEnabled ctx gen =
        buildFallbackOpportunity ctx) ∧
    (∀ msg, gen = .fail msg →
      extractOpportunitiesFromEmail true ctx gen =
        (buildFallbackOpportunity ctx).map (fun item =>
          { item with raw := jobjAdd item.raw "extraction_error" (.str msg) })) ∧
    (∀ parsed txt, gen = .ok parsed txt →
      ((match parsed.get "opportunities" with
        | some (.arr xs) => xs
        | _ => []).map (cleanOpportunity ctx)).filter keepOpportunity = [] →
      extractOpportunitiesFromEmail true ctx gen =
        (buildFallbackOpportunity ctx).map (fun item =>
          { item with raw := jobjAdd item.raw "extraction_response" (.str txt) })) ∧
    ((buildFallbackOpportunity ctx).length = 1 ∧
     ∀ item ∈ buildFallbackOpportunity ctx,
       item.job_title = ctx.subject ∧
       item.company =
         normalizeString (some (beforeChar ctx.fromAddr (Char.ofNat 60)))
           ctx.fromAddr ∧
       item.description = truncate ctx.textBody MAX_DESCRIPTION_CHARS ∧
       item.confidence = some (35 / 100 : ℚ) ∧
       item.raw.get "fallback" = some (.bool true)) := by
  refine ⟨?_, ?_, ?_, ?_, ?_, ?_⟩
  · cases aiEnabled with
    | false => simp [extractOpportunitiesFromEmail, buildFallbackOpportunity]
    | true =>
      cases gen with
      | fail msg =>
        simp [extractOpportunitiesFromEmail, buildFallbackOpportunity]
      | ok parsed txt =>
        simp only [extractOpportunitiesFromEmail, Bool.not_true,
          Bool.false_eq_true, if_false]
        split
        · next hlen => exact List.ne_nil_of_length_pos hlen
        · simp [buildFallbackOpportunity]
  · intro h
    subst h
    rfl
  · intro msg h
    subst h
    rfl
  · intro parsed txt h hempty
    subst h
    simp only [extractOpportunitiesFromEmail, Bool.not_true,
      Bool.false_eq_true, if_false, hempty]
    rfl
  · rfl
  · intro item hitem
    simp only [buildFallbackOpportunity, List.mem_singleton] at hitem
    subst hitem
    refine ⟨rfl, rfl, rfl, rfl, rfl⟩

/-- A concrete normalized email for the C5/C6 witnesses. -/
def wCtx : EmailContext :=
  { messageId := "<w@example>"
  , subject := "Hiring Backend Engineer"
  , fromAddr := "Acme Jobs <jobs@acme.example>"
  , receivedAt := none
  , textBody := "We are hiring."
  , htmlBody := ""
  , links := [] }

theorem C5_extract_at_least_one_witness :
    extractOpportunitiesFromEmail false wCtx (.fail "boom") ≠ [] ∧
    extractOpportunitiesFromEmail false wCtx (.fail "boom") =
      buildFallbackOpportunity wCtx :=
  ⟨(C5_extract_at_least_one false wCtx (.fail "boom")).1,
   (C5_extract_at_least_one false wCtx (.fail "boom")).2.1 rfl⟩

/-- C6: `enrich` never raises, and each degraded path returns the original
candidate with only the enrichment-metadata fields set: capability
disabled gives `skipped_no_gemini`; a candidate with no urls of its own
and no email links gives `skipped_no_urls` (capability enabled); a failing
generation call (with at least one candidate url, the only situation in
which the call is made) gives `enrichment_status = "error"` with the
failure reason recorded — the core candidate fields are untouched in each
case. -/
theorem C6_enrich_never_raises (aiEnabled : Bool) (opp : Opp)
    (links : List LinkOut) (call : EnrichCall) :
    (aiEnabled = false →
      enrichOpportunityWithUrls aiEnabled opp links call =
        { opp with
          enrichment_status := some "skipped_no_gemini"
          enrichment_error := none
          url_context_metadata := none }) ∧
    (opp.apply_url = none → opp.posting_url = none → links = [] →
      enrichOpportunityWithUrls true opp links call =
        { opp with
          enrichment_status := some "skipped_no_urls"
          enrichment_error := none
          url_context_metadata := none }) ∧
    (∀ msg, call = .fail msg → enrichCandidateUrls opp links ≠ [] →
      enrichOpportunityWithUrls true opp links call =
        { opp with
          enrichment_status := some "error"
          enrichment_error := some msg
          url_context_metadata := none }) := by
  refine ⟨?_, ?_, ?_⟩
  · intro h
    subst h
    rfl
  · intro ha hp hl
    subst hl
    have hurls : enrichCandidateUrls opp [] = [] := by
      unfold enrichCandidateUrls
      rw [ha, hp]
      rfl
    simp only [enrichOpportunityWithUrls, hurls, Bool.not_true,
      Bool.false_eq_true, if_false, List.length_nil, if_pos]
  · intro msg hc hne
    subst hc
    simp only [enrichOpportunityWithUrls, Bool.not_true, Bool.false_eq_true,
      if_false]
    split
    · next h => exact absurd (List.length_eq_zero.mp h) hne
    · rfl

/-- The C1 witness candidate with its url removed (for the C6 witness). -/
def wOppNoUrl : Opp :=
  { wOppA with apply_url := none }

theorem C6_enrich_never_raises_witness :
    enrichOpportunityWithUrls true wOppNoUrl [] (.fail "timeout") =
      { wOppNoUrl with
        enrichment_status := some "skipped_no_urls"
        enrichment_error := none
        url_context_metadata := none } :=
  (C6_enrich_never_raises true wOppNoUrl [] (.fail "timeout")).2.1 rfl rfl rfl

/-- Once `messagePersisted` is true, one more opportunity iteration keeps
it true (the loop only ever sets the flag). -/
theorem processOpportunity_keeps_persisted (aiEnabled : Bool)
    (u host : String) (uid : Nat) (ctx : EmailContext) (st : RunSt)
    (extracted : Opp) (call : OppCall) :
    (processOpportunity aiEnabled u host uid ctx st true extracted call).2 =
      true := by
  unfold processOpportunity
  rcases h : call.lookupError with _ | m
  · dsimp only []
    split
    · rfl
    · rcases h2 : call.insertError with _ | m2
      · dsimp only []
        rcases h3 : call.resumeResult with u3 | m3 <;> rfl
      · rfl
  · rfl

/-- The whole remaining opportunity loop keeps `messagePersisted` true. -/
theorem processOpps_keeps_persisted (aiEnabled : Bool) (u host : String)
    (uid : Nat) (ctx : EmailContext) (calls : Nat → OppCall) :
    ∀ (opps : List Opp) (i : Nat) (st : RunSt),
      (processOpps aiEnabled u host uid ctx calls opps i st true).2 = true := by
  intro opps
  induction opps with
  | nil => intro i st; rfl
  | cons o rest ih =>
    intro i st
    show (processOpps aiEnabled u host uid ctx calls rest (i + 1)
      (processOpportunity aiEnabled u host uid ctx st true o (calls i)).1
      (processOpportunity aiEnabled u host uid ctx st true o (calls i)).2).2 = true
    rw [processOpportunity_keeps_persisted]
    exact ih (i + 1) _

/-- C2: when a persisted job already exists for the triple (user id,
source message id, fingerprint) and the lookup succeeds, the opportunity
iteration increments only the duplicate counter, performs no job insert
and no resume insert (tables unchanged), and sets `messagePersisted`;
the flag is never cleared by later iterations; and a message whose
opportunity loop ends persisted has its uid appended to the list later
passed to mark-as-processed. -/
theorem C2_duplicate_is_persisted_without_write (aiEnabled : Bool)
    (u host : String) (uid : Nat) (ctx : EmailContext) (st : RunSt)
    (persisted : Bool) (extracted : Opp) (call : OppCall)
    (hl : call.lookupError = none)
    (hdup : jobExists st.db u ctx.messageId
      (buildJobFingerprint ctx.messageId
        (enrichOpportunityWithUrls aiEnabled extracted ctx.links
          call.enrichCall)) = true) :
    processOpportunity aiEnabled u host uid ctx st persisted extracted call =
      ({ st with stats := { st.stats with
          duplicateJobs := st.stats.duplicateJobs + 1 } }, true) ∧
    (∀ (opps : List Opp) (calls : Nat → OppCall) (i : Nat) (st2 : RunSt),
      (processOpps aiEnabled u host uid ctx calls opps i st2 true).2 = true) ∧
    (∀ (keywords : List String) (matchInBody : Bool) (mo : MsgOracle)
        (uids : List Nat) (pm : ParsedMail),
      mo.parse = .ok pm →
      (mo.countError = false →
        st.db.any (fun j => j.user_id == u &&
          j.email_id == (parseMessage uid pm).messageId) = false) →
      keywordMatch (parseMessage uid pm) keywords matchInBody = true →
      (msgLoopResult aiEnabled u host uid (parseMessage uid pm) mo st).2 = true →
      (processMessage aiEnabled u host keywords matchInBody uid mo st uids).2 =
        uids ++ [uid]) := by
  refine ⟨?_, ?_, ?_⟩
  · unfold processOpportunity
    rw [hl]
    dsimp only []
    rw [hdup]
    rfl
  · intro opps calls i st2
    exact processOpps_keeps_persisted aiEnabled u host uid ctx calls opps i st2
  · intro keywords matchInBody mo uids pm hparse hskip hkw hpers
    unfold processMessage
    rw [hparse]
    dsimp only []
    cases hce : mo.countError with
    | true => simp [hce, hkw, hpers]
    | false =>
      have hany := hskip hce
      simp [hce, hany, hkw, hpers]

/-- Oracle for one opportunity iteration whose DB calls succeed (for the
C2 witness; the enrichment call is never reached since the capability is
disabled there). -/
def wCall : OppCall :=
  { enrichCall := .fail "unreached"
  , lookupError := none
  , insertError := none
  , resumeResult := .ok () }

/-- The C1 witness candidate after the (capability-disabled) enrichment
step of the C2 witness scenario. -/
def wEnrA : Opp :=
  enrichOpportunityWithUrls false wOppA wCtx.links wCall.enrichCall

/-- A job row already persisted for exactly the (user, message,
fingerprint) triple the C2 witness scenario will compute. -/
def wRow : JobData :=
  buildJobData "u1" "imap.example" 7 wCtx wOppA wEnrA

/-- A run state whose jobs table already holds `wRow`. -/
def wDupSt : RunSt :=
  { stats := resetStats, db := [wRow], resumes := [] }

theorem C2_duplicate_is_persisted_without_write_witness :
    processOpportunity false "u1" "imap.example" 7 wCtx wDupSt false wOppA
      wCall =
      ({ wDupSt with stats := { wDupSt.stats with
          duplicateJobs := wDupSt.stats.duplicateJobs + 1 } }, true) :=
  (C2_duplicate_is_persisted_without_write false "u1" "imap.example" 7 wCtx
    wDupSt false wOppA wCall rfl
    (by simp [jobExists, wDupSt, wRow, buildJobData, wEnrA])).1

/-- `splitScheme` splits at the first colon. -/
theorem splitScheme_append (l1 l2 : List Char) (h : ':' ∉ l1) :
    splitScheme (l1 ++ ':' :: l2) = some (l1, l2) := by
  induction l1 with
  | nil => simp [splitScheme]
  | cons c cs ih =>
    have hc : c ≠ ':' := fun hc => h (hc ▸ List.mem_cons_self c cs)
    have hcs : ':' ∉ cs := fun hm => h (List.mem_cons_of_mem c hm)
    simp [splitScheme, hc, ih hcs]

/-- A non-empty remainder attached to the scheme `http:` or `https:`
parses back to that scheme, so the serialization is a well-formed http(s)
URL. -/
theorem isHttpUrl_of_parts (p : UrlParts) (hrest : p.rest ≠ "")
    (hp : p.protocol = "http:" ∨ p.protocol = "https:") :
    IsHttpUrl (urlToString p) = true := by
  obtain ⟨proto, rest⟩ := p
  simp only at hrest
  have hdata : rest.data ≠ [] := by
    intro hnil
    exact hrest (by cases rest; simp_all)
  rcases hp with hp | hp <;> subst hp
  · unfold urlToString IsHttpUrl urlParse
    simp only []
    rw [show ("http:" ++ rest).data = ['h','t','t','p'] ++ (':' :: rest.data)
      from rfl]
    rw [splitScheme_append _ _ (by decide)]
    simp [hdata, isSchemeChar]
  · unfold urlToString IsHttpUrl urlParse
    simp only []
    rw [show ("https:" ++ rest).data = ['h','t','t','p','s'] ++ (':' :: rest.data)
      from rfl]
    rw [splitScheme_append _ _ (by decide)]
    simp [hdata, isSchemeChar]

/-- Everything `normalizeUrl` accepts is a well-formed absolute URL with
scheme http or https. -/
theorem normalizeUrl_isHttp (s u : String) (h : normalizeUrl s = some u) :
    IsHttpUrl u = true := by
  unfold normalizeUrl at h
  dsimp only [] at h
  split at h
  · exact absurd h (by simp)
  · rcases hp : urlParse (jsTrim s) with _ | p
    · rw [hp] at h
      exact absurd h (by simp)
    · rw [hp] at h
      simp only [] at h
      split at h
      · next hproto =>
        have hu : u = urlToString p := by
          injection h with h2
          exact h2.symm
        subst hu
        have hrest : p.rest ≠ "" := by
          unfold urlParse at hp
          rcases hsp : splitScheme (jsTrim s).data with _ | ⟨scheme, rest⟩ <;>
            rw [hsp] at hp
          · exact absurd hp (by simp)
          · rcases scheme with _ | ⟨c, cs⟩
            · exact absurd hp (by simp)
            · simp only [] at hp
              split at hp
              · next hguard =>
                injection hp with hp2
                subst hp2
                simp only [Bool.and_eq_true, decide_eq_true_eq] at hguard
                simp only []
                intro hmk
                exact hguard.2 (by
                  have : (⟨rest⟩ : String).data = ("" : String).data := by
                    rw [hmk]
                  simpa using this)
              · exact absurd hp (by simp)
        apply isHttpUrl_of_parts p hrest
        rcases Bool.or_eq_true _ _ |>.mp hproto with hh | hh
        · exact Or.inl (by simpa using hh)
        · exact Or.inr (by simpa using hh)
      · exact absurd h (by simp)

/-- The dedupe loop only ever emits urls accepted by `normalizeUrl`. -/
theorem dedupeGo_isHttp (max : Nat) :
    ∀ (ls : List Link) (acc : List LinkOut),
      (∀ e ∈ acc, IsHttpUrl e.url = true) →
      ∀ e ∈ dedupeGo max ls acc, IsHttpUrl e.url = true := by
  intro ls
  induction ls with
  | nil =>
    intro acc hacc e he
    exact hacc e he
  | cons l rest ih =>
    intro acc hacc e he
    rw [show dedupeGo max (l :: rest) acc =
      (match normalizeUrlO l.url with
       | none => dedupeGo max rest acc
       | some u =>
         let acc2 :=
           if acc.any (fun e => e.url == u) then acc
           else acc ++ [⟨u, normalizeString l.text ""⟩]
         if max ≤ acc2.length then acc2 else dedupeGo max rest acc2)
      from rfl] at he
    rcases hn : normalizeUrlO l.url with _ | u
    · rw [hn] at he
      exact ih acc hacc e he
    · rw [hn] at he
      have hu : IsHttpUrl u = true := by
        rcases hl : l.url with _ | s
        · rw [hl] at hn
          exact absurd hn (by simp [normalizeUrlO])
        · rw [hl] at hn
          exact normalizeUrl_isHttp s u hn
      dsimp only [] at he
      split at he
      · split at he
        · exact hacc e he
        · exact ih acc hacc e he
      · have hacc2 : ∀ x ∈ acc ++ [(⟨u, normalizeString l.text ""⟩ : LinkOut)],
            IsHttpUrl x.url = true := by
          intro x hx
          rcases List.mem_append.mp hx with hx | hx
          · exact hacc x hx
          · simp only [List.mem_singleton] at hx
            subst hx
            exact hu
        split at he
        · exact hacc2 e he
        · exact ih _ hacc2 e he

/-- C10 helper: every entry of `dedupeLinks` carries an http(s) url. -/
theorem dedupeLinks_isHttp (links : List Link) (max : Nat) :
    ∀ e ∈ dedupeLinks links max, IsHttpUrl e.url = true :=
  dedupeGo_isHttp max links [] (by intro e he; cases he)

/-- C10 helper: every link of a normalized email carries an http(s) url. -/
theorem parseMessage_links_isHttp (uid : Nat) (p : ParsedMail) :
    ∀ e ∈ (parseMessage uid p).links, IsHttpUrl e.url = true := by
  intro e he
  exact dedupeLinks_isHttp _ _ e he

/-- A nullable url field is either absent or an http(s) URL. -/
def optHttp : Option String → Prop
  | none => True
  | some u => IsHttpUrl u = true

/-- Candidate url invariant: both url fields of an opportunity are absent
or http(s). -/
def OppUrlOk (o : Opp) : Prop :=
  optHttp o.posting_url ∧ optHttp o.apply_url

theorem optHttp_none : optHttp none := trivial

theorem optHttp_normalizeUrlO (v : Option String) :
    optHttp (normalizeUrlO v) := by
  rcases v with _ | s
  · exact trivial
  · rcases h : normalizeUrl s with _ | u
    · simp [normalizeUrlO, h, optHttp]
    · simp [normalizeUrlO, h, optHttp]
      exact normalizeUrl_isHttp s u h

theorem optHttp_normalizeUrlJ (v : Option Jval) :
    optHttp (normalizeUrlJ v) := by
  rcases h : jasStr v with _ | s
  · simp [normalizeUrlJ, h, optHttp]
  · rcases h2 : normalizeUrl s with _ | u
    · simp [normalizeUrlJ, h, h2, optHttp]
    · simp [normalizeUrlJ, h, h2, optHttp]
      exact normalizeUrl_isHttp s u h2

theorem optHttp_jsOrOpt (a b : Option String) (ha : optHttp a)
    (hb : optHttp b) : optHttp (jsOrOpt a b) := by
  rcases a with _ | s
  · exact hb
  · by_cases hs : s = ""
    · simpa [jsOrOpt, hs] using hb
    · simpa [jsOrOpt, hs] using ha

theorem optHttp_jsOrNull (a : Option String) (ha : optHttp a) :
    optHttp (jsOrNull a) :=
  optHttp_jsOrOpt a none ha trivial

/-- The first-link fallback url is absent or http(s) when every email link
is http(s). -/
theorem optHttp_headLink (links : List LinkOut)
    (hl : ∀ e ∈ links, IsHttpUrl e.url = true) :
    optHttp (jsOrNull ((links.head?).map (fun l => l.url))) := by
  rcases links with _ | ⟨l, rest⟩
  · exact trivial
  · exact optHttp_jsOrNull _ (hl l (List.mem_cons_self l rest))

/-- Both urls of the fallback candidate are absent or http(s). -/
theorem buildFallbackOpportunity_urlOk (ctx : EmailContext)
    (hl : ∀ e ∈ ctx.links, IsHttpUrl e.url = true) :
    ∀ o ∈ buildFallbackOpportunity ctx, OppUrlOk o := by
  intro o ho
  simp only [buildFallbackOpportunity, List.mem_singleton] at ho
  subst ho
  exact ⟨optHttp_headLink ctx.links hl, optHttp_headLink ctx.links hl⟩

/-- Both urls of a cleaned extraction candidate are absent or http(s). -/
theorem cleanOpportunity_urlOk (ctx : EmailContext) (j : Jval) :
    OppUrlOk (cleanOpportunity ctx j) :=
  ⟨optHttp_normalizeUrlJ _, optHttp_normalizeUrlJ _⟩

/-- Every candidate the extractor returns satisfies the url invariant. -/
theorem extract_urlOk (aiEnabled : Bool) (ctx : EmailContext) (gen : GenCall)
    (hl : ∀ e ∈ ctx.links, IsHttpUrl e.url = true) :
    ∀ o ∈ extractOpportunitiesFromEmail aiEnabled ctx gen, OppUrlOk o := by
  intro o ho
  unfold extractOpportunitiesFromEmail at ho
  split at ho
  · exact buildFallbackOpportunity_urlOk ctx hl o ho
  · rcases gen with msg | ⟨parsed, txt⟩
    · simp only [List.mem_map] at ho
      obtain ⟨item, hitem, hmap⟩ := ho
      have := buildFallbackOpportunity_urlOk ctx hl item hitem
      subst hmap
      exact this
    · dsimp only [] at ho
      split at ho
      · have hmem := List.mem_of_mem_filter ho
        simp only [List.mem_map] at hmem
        obtain ⟨j, _, hj⟩ := hmem
        subst hj
        exact cleanOpportunity_urlOk ctx j
      · simp only [List.mem_map] at ho
        obtain ⟨item, hitem, hmap⟩ := ho
        have := buildFallbackOpportunity_urlOk ctx hl item hitem
        subst hmap
        exact this

/-- Enrichment preserves the url invariant. -/
theorem enrich_urlOk (aiEnabled : Bool) (opp : Opp) (links : List LinkOut)
    (call : EnrichCall) (h : OppUrlOk opp) :
    OppUrlOk (enrichOpportunityWithUrls aiEnabled opp links call) := by
  unfold enrichOpportunityWithUrls
  split
  · exact h
  · dsimp only []
    split
    · exact h
    · rcases call with msg | ⟨parsed, meta⟩
      · exact h
      · refine ⟨?_, ?_⟩
        · exact optHttp_jsOrNull _
            (optHttp_jsOrOpt _ _ (optHttp_normalizeUrlJ _) h.1)
        · exact optHttp_jsOrNull _
            (optHttp_jsOrOpt _ _ (optHttp_normalizeUrlJ _)
              (optHttp_jsOrOpt _ _ h.2
                (optHttp_jsOrOpt _ _ (optHttp_normalizeUrlJ _) h.1)))

/-- Persisted-row url invariant: `posting_url` / `apply_url` are absent or
http(s); `job_link` is an http(s) URL or the synthesized `imap://`
locator. -/
def JobRowOk (j : JobData) : Prop :=
  optHttp j.posting_url ∧ optHttp j.apply_url ∧
    (IsHttpUrl j.job_link = true ∨ ∃ r, j.job_link = "imap://" ++ r)

/-- Every row built by `buildJobData` from an enriched candidate that
satisfies the url invariant (over a normalized email) satisfies the
persisted-row invariant. -/
theorem buildJobData_rowOk (u host : String) (uid : Nat)
    (ctx : EmailContext) (extracted enriched : Opp)
    (hl : ∀ e ∈ ctx.links, IsHttpUrl e.url = true)
    (henr : OppUrlOk enriched) :
    JobRowOk (buildJobData u host uid ctx extracted enriched) := by
  have hprim : optHttp (jsOrOpt enriched.apply_url
      (jsOrOpt enriched.posting_url
        (jsOrNull ((ctx.links.head?).map (fun l => l.url))))) :=
    optHttp_jsOrOpt _ _ henr.2
      (optHttp_jsOrOpt _ _ henr.1 (optHttp_headLink ctx.links hl))
  refine ⟨optHttp_jsOrOpt _ _ henr.1 hprim, optHttp_jsOrOpt _ _ henr.2 hprim, ?_⟩
  show IsHttpUrl ((jsOrOpt (jsOrOpt enriched.apply_url
      (jsOrOpt enriched.posting_url
        (jsOrNull ((ctx.links.head?).map (fun l => l.url)))))
      (some ("imap://" ++ host ++ "/INBOX/" ++ toString uid))).getD "") = true ∨
    ∃ r, ((jsOrOpt (jsOrOpt enriched.apply_url
      (jsOrOpt enriched.posting_url
        (jsOrNull ((ctx.links.head?).map (fun l => l.url)))))
      (some ("imap://" ++ host ++ "/INBOX/" ++ toString uid))).getD "") =
      "imap://" ++ r
  rcases hp : jsOrOpt enriched.apply_url
      (jsOrOpt enriched.posting_url
        (jsOrNull ((ctx.links.head?).map (fun l => l.url)))) with _ | v
  · rw [hp]
    refine Or.inr ⟨host ++ "/INBOX/" ++ toString uid, ?_⟩
    simp [jsOrOpt, String.append_assoc]
  · rw [hp] at hprim ⊢
    by_cases hv : v = ""
    · rw [hv]
      refine Or.inr ⟨host ++ "/INBOX/" ++ toString uid, ?_⟩
      simp [jsOrOpt, String.append_assoc]
    · refine Or.inl ?_
      simpa [jsOrOpt, hv] using hprim

/-- The jobs-table invariant. -/
def DbOk (db : List JobData) : Prop := ∀ j ∈ db, JobRowOk j

/-- The opportunity iteration preserves the jobs-table invariant. -/
theorem processOpportunity_dbOk (aiEnabled : Bool) (u host : String)
    (uid : Nat) (ctx : EmailContext) (st : RunSt) (persisted : Bool)
    (extracted : Opp) (call : OppCall)
    (hl : ∀ e ∈ ctx.links, IsHttpUrl e.url = true)
    (hext : OppUrlOk extracted) (hdb : DbOk st.db) :
    DbOk (processOpportunity aiEnabled u host uid ctx st persisted extracted
      call).1.db := by
  have henr : OppUrlOk
      (enrichOpportunityWithUrls aiEnabled extracted ctx.links call.enrichCall) :=
    enrich_urlOk aiEnabled extracted ctx.links call.enrichCall hext
  unfold processOpportunity
  rcases call.lookupError with _ | m
  · dsimp only []
    split
    · exact hdb
    · rcases call.insertError with _ | m2
      · dsimp only []
        have hnew : DbOk (st.db ++
            [buildJobData u host uid ctx extracted
              (enrichOpportunityWithUrls aiEnabled extracted ctx.links
                call.enrichCall)]) := by
          intro j hj
          rcases List.mem_append.mp hj with hj | hj
          · exact hdb j hj
          · simp only [List.mem_singleton] at hj
            subst hj
            exact buildJobData_rowOk u host uid ctx extracted _ hl henr
        rcases call.resumeResult with u3 | m3 <;> exact hnew
      · exact hdb
  · exact hdb

/-- The opportunity loop preserves the jobs-table invariant. -/
theorem processOpps_dbOk (aiEnabled : Bool) (u host : String) (uid : Nat)
    (ctx : EmailContext) (calls : Nat → OppCall)
    (hl : ∀ e ∈ ctx.links, IsHttpUrl e.url = true) :
    ∀ (opps : List Opp) (i : Nat) (st : RunSt) (persisted : Bool),
      (∀ o ∈ opps, OppUrlOk o) → DbOk st.db →
      DbOk (processOpps aiEnabled u host uid ctx calls opps i st persisted).1.db := by
  intro opps
  induction opps with
  | nil => intro i st persisted _ hdb; exact hdb
  | cons o rest ih =>
    intro i st persisted hopps hdb
    show DbOk (processOpps aiEnabled u host uid ctx calls rest (i + 1)
      (processOpportunity aiEnabled u host uid ctx st persisted o (calls i)).1
      (processOpportunity aiEnabled u host uid ctx st persisted o (calls i)).2).1.db
    exact ih (i + 1) _ _
      (fun x hx => hopps x (List.mem_cons_of_mem o hx))
      (processOpportunity_dbOk aiEnabled u host uid ctx st persisted o (calls i)
        hl (hopps o (List.mem_cons_self o rest)) hdb)

/-- The post-guard tail of a message iteration preserves the jobs-table
invariant when the email context is a parsed message. -/
theorem msgLoopResult_dbOk (aiEnabled : Bool) (u host : String) (uid : Nat)
    (ctx : EmailContext) (mo : MsgOracle) (st : RunSt)
    (hl : ∀ e ∈ ctx.links, IsHttpUrl e.url = true) (hdb : DbOk st.db) :
    DbOk (msgLoopResult aiEnabled u host uid ctx mo st).1.db := by
  unfold msgLoopResult
  exact processOpps_dbOk aiEnabled u host uid ctx mo.calls hl _ 0 _ false
    (extract_urlOk aiEnabled ctx mo.gen hl) hdb

/-- One message iteration preserves the jobs-table invariant. -/
theorem processMessage_dbOk (aiEnabled : Bool) (u host : String)
    (keywords : List String) (matchInBody : Bool) (uid : Nat)
    (mo : MsgOracle) (st : RunSt) (uids : List Nat) (hdb : DbOk st.db) :
    DbOk (processMessage aiEnabled u host keywords matchInBody uid mo st
      uids).1.db := by
  unfold processMessage
  rcases mo.parse with e | pm
  · exact hdb
  · dsimp only []
    split
    · exact hdb
    · split
      · exact hdb
      · exact msgLoopResult_dbOk aiEnabled u host uid (parseMessage uid pm) mo
          st (parseMessage_links_isHttp uid pm) hdb

/-- The message loop preserves the jobs-table invariant. -/
theorem processMessages_dbOk (aiEnabled : Bool) (u host : String)
    (keywords : List String) (matchInBody : Bool) :
    ∀ (msgs : List (Nat × MsgOracle)) (st : RunSt) (uids : List Nat),
      DbOk st.db →
      DbOk (processMessages aiEnabled u host keywords matchInBody msgs st
        uids).1.db := by
  intro msgs
  induction msgs with
  | nil => intro st uids hdb; exact hdb
  | cons m rest ih =>
    intro st uids hdb
    exact ih _ _
      (processMessage_dbOk aiEnabled u host keywords matchInBody m.1 m.2 st
        uids hdb)

/-- One integration iteration preserves the jobs-table invariant. -/
theorem processIntegration_dbOk (aiEnabled syncAll : Bool)
    (integ : Integration) (io : IntOracle) (st : RunSt) (hdb : DbOk st.db) :
    DbOk (processIntegration aiEnabled syncAll integ io st).db := by
  unfold processIntegration
  dsimp only []
  rcases h1 : io.decryptResult with e | u1 <;> simp only [h1]
  · exact hdb
  · rcases h2 : io.profileResult with e | u2 <;> simp only [h2]
    · exact hdb
    · rcases h3 : io.fetchResult
          (effectiveMaxEmails syncAll integ.max_emails_per_sync) with e | msgs <;>
        simp only [h3]
      · exact hdb
      · split
        · rcases io.markError with _ | m
          · exact processMessages_dbOk aiEnabled integ.user_id integ.imap_host
              _ _ _ _ _ hdb
          · exact processMessages_dbOk aiEnabled integ.user_id integ.imap_host
              _ _ _ _ _ hdb
        · exact processMessages_dbOk aiEnabled integ.user_id integ.imap_host
            _ _ _ _ _ hdb

/-- The integration loop preserves the jobs-table invariant. -/
theorem processIntegrations_dbOk (aiEnabled syncAll : Bool)
    (ints : Nat → IntOracle) :
    ∀ (integs : List Integration) (i : Nat) (st : RunSt), DbOk st.db →
      DbOk (processIntegrations aiEnabled syncAll ints integs i st).db := by
  intro integs
  induction integs with
  | nil => intro i st hdb; exact hdb
  | cons integ rest ih =>
    intro i st hdb
    exact ih (i + 1) _
      (processIntegration_dbOk aiEnabled syncAll integ (ints i) st hdb)

/-- The whole background run preserves the jobs-table invariant. -/
theorem startPoll_dbOk (syncAll : Bool) (o : PollOracle) (st : RunSt)
    (hdb : DbOk st.db) : DbOk (startPoll syncAll o st).db := by
  unfold startPoll handlePoll
  rcases o.preThrow with _ | e
  · dsimp only []
    rcases o.integrationsResult with m | integs
    · exact hdb
    · dsimp only []
      split
      · exact hdb
      · exact processIntegrations_dbOk o.aiEnabled syncAll o.intOracle integs 0
          _ hdb
  · exact hdb

/-- C10: every URL the pipeline stores or forwards is either absent or a
well-formed absolute http(s) URL: `normalizeUrl` accepts nothing else;
every entry of a deduplicated link list, and hence of a normalized email's
`links`, carries an http(s) url; and a run started from a jobs table
satisfying the invariant (`posting_url`/`apply_url` absent-or-http(s),
`job_link` http(s) or the synthesized `imap://` locator — the one
exception) ends with the jobs table still satisfying it. -/
theorem C10_url_invariant :
    (∀ (s u : String), normalizeUrl s = some u → IsHttpUrl u = true) ∧
    (∀ (links : List Link) (max : Nat),
      ∀ e ∈ dedupeLinks links max, IsHttpUrl e.url = true) ∧
    (∀ (uid : Nat) (p : ParsedMail),
      ∀ e ∈ (parseMessage uid p).links, IsHttpUrl e.url = true) ∧
    (∀ (syncAll : Bool) (o : PollOracle) (st : RunSt),
      DbOk st.db → DbOk (startPoll syncAll o st).db) :=
  ⟨normalizeUrl_isHttp, dedupeLinks_isHttp, parseMessage_links_isHttp,
   startPoll_dbOk⟩

theorem C10_url_invariant_witness :
    IsHttpUrl "https://jobs.example/a?id=1" = true ∧
    DbOk (startPoll false trivialOracle busyState).db :=
  ⟨C10_url_invariant.1 "https://jobs.example/a?id=1" "https://jobs.example/a?id=1" rfl,
   C10_url_invariant.2.2.2 false trivialOracle busyState
     (by intro j hj; cases hj)⟩
